import Mathlib

/-!
Verification of the productivity-score module of the session tracker.

The module (`calculateProductivityScore`, `getDelayMinutes`,
`getCompletionPercentage`) is embedded shallowly:

* instants (`Date.getTime()` values) are integers of milliseconds (`ℤ`);
* JavaScript numbers entering the arithmetic are exact rationals (`ℚ`),
  except where `Math.exp` appears, which forces the real numbers (`ℝ`);
* `Math.round` is round-half-toward-positive-infinity, i.e. `⌊x + 1/2⌋`;
* `Math.floor` on the quotient of two integers is `Int.fdiv`.
-/

namespace ProductivityTracker

/-- JavaScript `Math.round` on an exact rational: round half toward
positive infinity, `⌊q + 1/2⌋`. -/
def jround (q : ℚ) : ℤ := ⌊q + 1 / 2⌋

/-- JavaScript `Math.round` on a real value; the real numbers are needed
where the pipeline involves `Math.exp`. -/
noncomputable def jroundR (x : ℝ) : ℤ := ⌊x + 1 / 2⌋

/-- Input record of `calculateProductivityScore`.  The two `Date` fields are
embedded as their `getTime()` values (milliseconds since the epoch). -/
structure ProductivityScoreInput where
  scheduledStart : ℤ
  actualStart : ℤ
  durationMinutes : ℚ
  completedMinutes : ℚ

/-- Result record of `calculateProductivityScore`; every field is an
integer because the source rounds each one with `Math.round`. -/
structure ScoreBreakdown where
  promptnessScore : ℤ
  focusScore : ℤ
  commitmentBonus : ℤ
  totalScore : ℤ
  deriving DecidableEq

/-- `getDelayMinutes`: `Math.floor((actualStart.getTime() - scheduledStart.getTime()) / (1000 * 60))`.
Floor of an integer divided by a positive integer is `Int.fdiv`. -/
def getDelayMinutes (scheduledStart actualStart : ℤ) : ℤ :=
  Int.fdiv (actualStart - scheduledStart) (1000 * 60)

/-- `getCompletionPercentage`: returns `0` when `durationMinutes <= 0`, else
`Math.max(0, Math.min(100, Math.round(ratio * 100)))` with
`ratio = completedMinutes / durationMinutes`. -/
def getCompletionPercentage (completedMinutes durationMinutes : ℚ) : ℤ :=
  if durationMinutes ≤ 0 then 0
  else max 0 (min 100 (jround (completedMinutes / durationMinutes * 100)))

/-- The unrounded promptness pillar computed inside
`calculateProductivityScore` (the `if`/`else if` chain on `delayMinutes`). -/
def promptnessOf (delayMinutes : ℤ) : ℚ :=
  if delayMinutes ≤ 2 then 30
  else if delayMinutes ≤ 10 then 30 - 1.875 * ((delayMinutes : ℚ) - 2)
  else if delayMinutes ≤ 30 then 15 - 0.75 * ((delayMinutes : ℚ) - 10)
  else 0

/-- The unrounded focus pillar computed inside `calculateProductivityScore`:
`(completionPercentage / 100) * 60`. -/
def focusOf (completionPercentage : ℤ) : ℚ :=
  (completionPercentage : ℚ) / 100 * 60

/-- The unrounded commitment bonus computed inside
`calculateProductivityScore`:
`(maxBonus + 0.5) / (1 + Math.exp(-0.07 * (completedMinutes - 45)))` with
`maxBonus = 10`. -/
noncomputable def commitmentBonusOf (completedMinutes : ℚ) : ℝ :=
  (10 + 0.5) / (1 + Real.exp (-0.07 * ((completedMinutes : ℝ) - 45)))

/-- `calculateProductivityScore`, with the source's `let`-bindings inlined:
the three unrounded pillars, the total capped at 100 computed on the
unrounded values, and every returned field rounded with `Math.round`. -/
noncomputable def calculateProductivityScore (input : ProductivityScoreInput) : ScoreBreakdown :=
  { promptnessScore :=
      jround (promptnessOf (getDelayMinutes input.scheduledStart input.actualStart))
    focusScore :=
      jround (focusOf (getCompletionPercentage input.completedMinutes input.durationMinutes))
    commitmentBonus := jroundR (commitmentBonusOf input.completedMinutes)
    totalScore := jroundR (min 100
      ((promptnessOf (getDelayMinutes input.scheduledStart input.actualStart) : ℝ)
        + (focusOf (getCompletionPercentage input.completedMinutes input.durationMinutes) : ℝ)
        + commitmentBonusOf input.completedMinutes)) }

/-! ### Helper lemmas on the rounding functions -/

lemma le_jround {z : ℤ} {q : ℚ} (h : (z : ℚ) ≤ q) : z ≤ jround q := by
  unfold jround
  exact Int.le_floor.2 (by linarith)

lemma jround_le {z : ℤ} {q : ℚ} (h : q ≤ (z : ℚ)) : jround q ≤ z := by
  unfold jround
  exact Int.floor_le_iff.2 (by linarith)

lemma jround_eq {q : ℚ} {z : ℤ} (h1 : (z : ℚ) ≤ q + 1 / 2) (h2 : q + 1 / 2 < (z : ℚ) + 1) :
    jround q = z := by
  unfold jround
  exact Int.floor_eq_iff.2 ⟨h1, by linarith⟩

lemma le_jroundR {z : ℤ} {x : ℝ} (h : (z : ℝ) ≤ x) : z ≤ jroundR x := by
  unfold jroundR
  exact Int.le_floor.2 (by linarith)

lemma jroundR_le {z : ℤ} {x : ℝ} (h : x ≤ (z : ℝ)) : jroundR x ≤ z := by
  unfold jroundR
  exact Int.floor_le_iff.2 (by linarith)

lemma jroundR_eq {x : ℝ} {z : ℤ} (h1 : (z : ℝ) ≤ x + 1 / 2) (h2 : x + 1 / 2 < (z : ℝ) + 1) :
    jroundR x = z := by
  unfold jroundR
  exact Int.floor_eq_iff.2 ⟨h1, by linarith⟩

/-! ### Helper lemmas on the promptness pillar -/

lemma promptnessOf_of_le_two {d : ℤ} (h : d ≤ 2) : promptnessOf d = 30 := by
  unfold promptnessOf
  rw [if_pos h]

lemma promptnessOf_of_mid {d : ℤ} (h1 : 2 < d) (h2 : d ≤ 10) :
    promptnessOf d = 30 - 1.875 * ((d : ℚ) - 2) := by
  unfold promptnessOf
  rw [if_neg (by omega), if_pos h2]

lemma promptnessOf_of_late {d : ℤ} (h1 : 10 < d) (h2 : d ≤ 30) :
    promptnessOf d = 15 - 0.75 * ((d : ℚ) - 10) := by
  unfold promptnessOf
  rw [if_neg (by omega), if_neg (by omega), if_pos h2]

lemma promptnessOf_of_gt_thirty {d : ℤ} (h : 30 < d) : promptnessOf d = 0 := by
  unfold promptnessOf
  rw [if_neg (by omega), if_neg (by omega), if_neg (by omega)]

lemma promptnessOf_nonneg (d : ℤ) : 0 ≤ promptnessOf d := by
  rcases le_or_lt d 2 with h | h
  · rw [promptnessOf_of_le_two h]; norm_num
  · rcases le_or_lt d 10 with h2 | h2
    · rw [promptnessOf_of_mid h h2]
      have : (d : ℚ) ≤ 10 := by exact_mod_cast h2
      norm_num
      linarith
    · rcases le_or_lt d 30 with h3 | h3
      · rw [promptnessOf_of_late h2 h3]
        have : (d : ℚ) ≤ 30 := by exact_mod_cast h3
        norm_num
        linarith
      · rw [promptnessOf_of_gt_thirty h3]

lemma promptnessOf_le_thirty (d : ℤ) : promptnessOf d ≤ 30 := by
  rcases le_or_lt d 2 with h | h
  · rw [promptnessOf_of_le_two h]
  · rcases le_or_lt d 10 with h2 | h2
    · rw [promptnessOf_of_mid h h2]
      have : (2 : ℚ) < (d : ℚ) := by exact_mod_cast h
      norm_num
      linarith
    · rcases le_or_lt d 30 with h3 | h3
      · rw [promptnessOf_of_late h2 h3]
        have : (10 : ℚ) < (d : ℚ) := by exact_mod_cast h2
        norm_num
        linarith
      · rw [promptnessOf_of_gt_thirty h3]; norm_num

lemma promptnessOf_succ_le (d : ℤ) : promptnessOf (d + 1) ≤ promptnessOf d := by
  rcases le_or_lt (d + 1) 2 with h | h
  · rw [promptnessOf_of_le_two h, promptnessOf_of_le_two (by omega)]
  · rcases le_or_lt (d + 1) 10 with h2 | h2
    · rw [promptnessOf_of_mid h h2]
      rcases le_or_lt d 2 with h3 | h3
      · rw [promptnessOf_of_le_two h3]
        have : (2 : ℚ) ≤ (d : ℚ) := by exact_mod_cast (show (2 : ℤ) ≤ d by omega)
        push_cast
        linarith
      · rw [promptnessOf_of_mid h3 (by omega)]
        push_cast
        linarith
    · rcases le_or_lt (d + 1) 30 with h4 | h4
      · rw [promptnessOf_of_late h2 h4]
        rcases le_or_lt d 10 with h5 | h5
        · have hd : d = 10 := by omega
          subst hd
          rw [promptnessOf_of_mid (by norm_num) (by norm_num)]
          norm_num
        · rw [promptnessOf_of_late h5 (by omega)]
          push_cast
          linarith
      · rw [promptnessOf_of_gt_thirty (by omega)]
        exact promptnessOf_nonneg d

lemma promptnessOf_antitone : Antitone promptnessOf :=
  antitone_int_of_succ_le promptnessOf_succ_le

/-! ### Helper lemmas on the completion percentage and the focus pillar -/

lemma getCompletionPercentage_nonneg (c d : ℚ) : 0 ≤ getCompletionPercentage c d := by
  unfold getCompletionPercentage
  split_ifs with h
  · exact le_refl 0
  · exact le_max_left 0 _

lemma getCompletionPercentage_le_hundred (c d : ℚ) : getCompletionPercentage c d ≤ 100 := by
  unfold getCompletionPercentage
  split_ifs with h
  · norm_num
  · exact max_le (by norm_num) (min_le_left _ _)

lemma getCompletionPercentage_of_nonpos {c d : ℚ} (h : d ≤ 0) :
    getCompletionPercentage c d = 0 := by
  unfold getCompletionPercentage
  rw [if_pos h]

lemma getCompletionPercentage_of_pos {c d : ℚ} (h : 0 < d) :
    getCompletionPercentage c d = max 0 (min 100 (jround (c / d * 100))) := by
  unfold getCompletionPercentage
  rw [if_neg (by linarith)]

lemma getCompletionPercentage_of_complete {c d : ℚ} (hd : 0 < d) (hc : d ≤ c) :
    getCompletionPercentage c d = 100 := by
  rw [getCompletionPercentage_of_pos hd]
  have hratio : (100 : ℚ) ≤ c / d * 100 := by
    have h1 : (1 : ℚ) ≤ c / d := (one_le_div hd).2 hc
    linarith
  have h100 : (100 : ℤ) ≤ jround (c / d * 100) := le_jround (by exact_mod_cast hratio)
  rw [min_eq_left h100, max_eq_right (by norm_num : (0 : ℤ) ≤ 100)]

lemma getCompletionPercentage_of_zero_completed {c d : ℚ} (hd : 0 < d) (hc : c ≤ 0) :
    getCompletionPercentage c d = 0 := by
  rw [getCompletionPercentage_of_pos hd]
  have hratio : c / d * 100 ≤ (0 : ℚ) := by
    have h1 : c / d ≤ 0 := div_nonpos_of_nonpos_of_nonneg hc hd.le
    linarith
  have h0 : jround (c / d * 100) ≤ 0 := jround_le (by exact_mod_cast hratio)
  rw [min_eq_right (le_trans h0 (by norm_num)), max_eq_left h0]

lemma focusOf_nonneg {p : ℤ} (h : 0 ≤ p) : 0 ≤ focusOf p := by
  unfold focusOf
  have : (0 : ℚ) ≤ (p : ℚ) := by exact_mod_cast h
  positivity

lemma focusOf_le_sixty {p : ℤ} (h : p ≤ 100) : focusOf p ≤ 60 := by
  unfold focusOf
  have : (p : ℚ) ≤ 100 := by exact_mod_cast h
  linarith

/-! ### Helper lemmas on the commitment bonus -/

lemma commitmentBonusOf_pos (c : ℚ) : 0 < commitmentBonusOf c := by
  unfold commitmentBonusOf
  positivity

lemma commitmentBonusOf_lt (c : ℚ) : commitmentBonusOf c < 10.5 := by
  unfold commitmentBonusOf
  have he : (0 : ℝ) < Real.exp (-0.07 * ((c : ℝ) - 45)) := Real.exp_pos _
  have h := div_lt_self (by norm_num : (0 : ℝ) < 10 + 0.5)
    (by linarith : (1 : ℝ) < 1 + Real.exp (-0.07 * ((c : ℝ) - 45)))
  calc (10 + 0.5 : ℝ) / (1 + Real.exp (-0.07 * ((c : ℝ) - 45))) < 10 + 0.5 := h
    _ = 10.5 := by norm_num

lemma commitmentBonusOf_lt_of_lt {c1 c2 : ℚ} (h : c1 < c2) :
    commitmentBonusOf c1 < commitmentBonusOf c2 := by
  unfold commitmentBonusOf
  have hc : (c1 : ℝ) < (c2 : ℝ) := by exact_mod_cast h
  have hexp : Real.exp (-0.07 * ((c2 : ℝ) - 45)) < Real.exp (-0.07 * ((c1 : ℝ) - 45)) :=
    Real.exp_lt_exp.2 (by linarith)
  have h2 : (0 : ℝ) < 1 + Real.exp (-0.07 * ((c2 : ℝ) - 45)) := by positivity
  exact div_lt_div_of_pos_left (by norm_num) h2 (by linarith)

lemma commitmentBonusOf_at_midpoint : commitmentBonusOf 45 = 5.25 := by
  unfold commitmentBonusOf
  have h0 : (-0.07 : ℝ) * (((45 : ℚ) : ℝ) - 45) = 0 := by norm_num
  rw [h0, Real.exp_zero]
  norm_num

lemma commitmentBonus_tendsto :
    Filter.Tendsto (fun n : ℕ => commitmentBonusOf (n : ℚ)) Filter.atTop (nhds 10.5) := by
  have h1 : Filter.Tendsto (fun n : ℕ => 0.07 * ((n : ℝ) - 45)) Filter.atTop Filter.atTop := by
    apply Filter.Tendsto.const_mul_atTop (by norm_num : (0 : ℝ) < 0.07)
    exact Filter.tendsto_atTop_add_const_right _ _ tendsto_natCast_atTop_atTop
  have h2 : Filter.Tendsto (fun n : ℕ => -0.07 * ((n : ℝ) - 45)) Filter.atTop Filter.atBot := by
    have h2a := Filter.tendsto_neg_atTop_atBot.comp h1
    have h2b : (fun n : ℕ => -(0.07 * ((n : ℝ) - 45))) = fun n : ℕ => -0.07 * ((n : ℝ) - 45) := by
      funext n
      ring
    rw [← h2b]
    exact h2a
  have h3 : Filter.Tendsto (fun n : ℕ => Real.exp (-0.07 * ((n : ℝ) - 45)))
      Filter.atTop (nhds 0) := Real.tendsto_exp_atBot.comp h2
  have h4 : Filter.Tendsto (fun n : ℕ => 1 + Real.exp (-0.07 * ((n : ℝ) - 45)))
      Filter.atTop (nhds (1 + 0)) := tendsto_const_nhds.add h3
  rw [add_zero] at h4
  have h5 : Filter.Tendsto (fun n : ℕ => (10 + 0.5 : ℝ) / (1 + Real.exp (-0.07 * ((n : ℝ) - 45))))
      Filter.atTop (nhds ((10 + 0.5) / 1)) :=
    Filter.Tendsto.div tendsto_const_nhds h4 one_ne_zero
  have heq : (fun n : ℕ => commitmentBonusOf (n : ℚ)) =
      fun n : ℕ => (10 + 0.5 : ℝ) / (1 + Real.exp (-0.07 * ((n : ℝ) - 45))) := by
    funext n
    unfold commitmentBonusOf
    norm_cast
  have h6 : ((10 + 0.5 : ℝ) / 1) = 10.5 := by norm_num
  rw [h6] at h5
  rw [heq]
  exact h5

lemma commitmentBonus_isLUB : IsLUB (Set.range commitmentBonusOf) 10.5 := by
  constructor
  · rintro x ⟨c, rfl⟩
    exact (commitmentBonusOf_lt c).le
  · intro b hb
    refine le_of_tendsto commitmentBonus_tendsto ?_
    exact Filter.Eventually.of_forall fun n => hb ⟨(n : ℚ), rfl⟩

/-! ### Helper lemmas on the delay -/

lemma getDelayMinutes_eq_floor (s a : ℤ) :
    getDelayMinutes s a = ⌊((a - s : ℤ) : ℚ) / 60000⌋ := by
  unfold getDelayMinutes
  have h := Rat.floor_intCast_div_natCast (a - s) 60000
  rw [show (((60000 : ℕ)) : ℚ) = (60000 : ℚ) by norm_num,
    show (((60000 : ℕ)) : ℤ) = (60000 : ℤ) by norm_num] at h
  rw [Int.fdiv_eq_ediv _ (by norm_num), show ((1000 : ℤ) * 60) = 60000 by norm_num, ← h]

lemma getDelayMinutes_neg_iff (s a : ℤ) : getDelayMinutes s a < 0 ↔ a < s := by
  rw [getDelayMinutes_eq_floor]
  constructor
  · intro h
    by_contra hge
    push_neg at hge
    have hq : (0 : ℚ) ≤ ((a - s : ℤ) : ℚ) / 60000 := by
      apply div_nonneg _ (by norm_num)
      exact_mod_cast sub_nonneg.2 hge
    have h0 : 0 ≤ ⌊((a - s : ℤ) : ℚ) / 60000⌋ := Int.floor_nonneg.2 hq
    omega
  · intro h
    have hlt : ((a - s : ℤ) : ℚ) / 60000 < 0 := by
      apply div_neg_of_neg_of_pos _ (by norm_num)
      exact_mod_cast sub_neg.2 h
    exact Int.floor_lt.2 (by exact_mod_cast hlt)

lemma getDelayMinutes_mono {s a1 a2 : ℤ} (h : a1 ≤ a2) :
    getDelayMinutes s a1 ≤ getDelayMinutes s a2 := by
  rw [getDelayMinutes_eq_floor, getDelayMinutes_eq_floor]
  apply Int.floor_mono
  have hsub : ((a1 - s : ℤ) : ℚ) ≤ ((a2 - s : ℤ) : ℚ) := by
    exact_mod_cast sub_le_sub_right h s
  gcongr

/-! ### Concrete evaluations of the full pipeline

The two inputs below make the commitment bonus exactly computable because
`completedMinutes = 45` gives `Math.exp 0 = 1`. -/

lemma calc_example_late : calculateProductivityScore ⟨0, 300000, 45, 45⟩ = ⟨24, 60, 5, 90⟩ := by
  have hdelay : getDelayMinutes 0 300000 = 5 := by decide
  have hpct : getCompletionPercentage 45 45 = 100 :=
    getCompletionPercentage_of_complete (by norm_num) (by norm_num)
  have hprom : promptnessOf 5 = 24.375 := by
    rw [promptnessOf_of_mid (by norm_num) (by norm_num)]
    norm_num
  have hfoc : focusOf 100 = 60 := by
    unfold focusOf
    norm_num
  have hbonus : commitmentBonusOf 45 = 5.25 := commitmentBonusOf_at_midpoint
  simp only [calculateProductivityScore]
  rw [hdelay, hpct, hprom, hfoc, hbonus]
  have hsum : ((24.375 : ℚ) : ℝ) + ((60 : ℚ) : ℝ) + 5.25 = 89.625 := by norm_num
  rw [hsum]
  have hmin : min (100 : ℝ) 89.625 = 89.625 := min_eq_right (by norm_num)
  rw [hmin]
  have h1 : jround (24.375 : ℚ) = 24 := jround_eq (by norm_num) (by norm_num)
  have h2 : jround (60 : ℚ) = 60 := jround_eq (by norm_num) (by norm_num)
  have h3 : jroundR (5.25 : ℝ) = 5 := jroundR_eq (by norm_num) (by norm_num)
  have h4 : jroundR (89.625 : ℝ) = 90 := jroundR_eq (by norm_num) (by norm_num)
  rw [h1, h2, h3, h4]

lemma calc_example_ontime : calculateProductivityScore ⟨0, 0, 45, 45⟩ = ⟨30, 60, 5, 95⟩ := by
  have hdelay : getDelayMinutes 0 0 = 0 := by decide
  have hpct : getCompletionPercentage 45 45 = 100 :=
    getCompletionPercentage_of_complete (by norm_num) (by norm_num)
  have hprom : promptnessOf 0 = 30 := promptnessOf_of_le_two (by norm_num)
  have hfoc : focusOf 100 = 60 := by
    unfold focusOf
    norm_num
  have hbonus : commitmentBonusOf 45 = 5.25 := commitmentBonusOf_at_midpoint
  simp only [calculateProductivityScore]
  rw [hdelay, hpct, hprom, hfoc, hbonus]
  have hsum : ((30 : ℚ) : ℝ) + ((60 : ℚ) : ℝ) + 5.25 = 95.25 := by norm_num
  rw [hsum]
  have hmin : min (100 : ℝ) 95.25 = 95.25 := min_eq_right (by norm_num)
  rw [hmin]
  have h1 : jround (30 : ℚ) = 30 := jround_eq (by norm_num) (by norm_num)
  have h2 : jround (60 : ℚ) = 60 := jround_eq (by norm_num) (by norm_num)
  have h3 : jroundR (5.25 : ℝ) = 5 := jroundR_eq (by norm_num) (by norm_num)
  have h4 : jroundR (95.25 : ℝ) = 95 := jroundR_eq (by norm_num) (by norm_num)
  rw [h1, h2, h3, h4]

/-! ### Claim theorems -/

/-- C1: `calculateProductivityScore` returns `totalScore = round(min(100, p + f + b))`
computed on the unrounded sub-scores, while each returned sub-score is
independently rounded; consequently there is an input where the sum of the
three returned rounded sub-scores differs from the returned total
(for delay 5, duration 45, completed 45 the parts round to 24 + 60 + 5 = 89
while the total rounds to 90). -/
theorem total_rounds_unrounded_sum :
    (∀ input : ProductivityScoreInput,
      (calculateProductivityScore input).totalScore =
        jroundR (min 100
          ((promptnessOf (getDelayMinutes input.scheduledStart input.actualStart) : ℝ)
            + (focusOf (getCompletionPercentage input.completedMinutes input.durationMinutes) : ℝ)
            + commitmentBonusOf input.completedMinutes)) ∧
      (calculateProductivityScore input).promptnessScore =
        jround (promptnessOf (getDelayMinutes input.scheduledStart input.actualStart)) ∧
      (calculateProductivityScore input).focusScore =
        jround (focusOf (getCompletionPercentage input.completedMinutes input.durationMinutes)) ∧
      (calculateProductivityScore input).commitmentBonus =
        jroundR (commitmentBonusOf input.completedMinutes)) ∧
    ∃ input : ProductivityScoreInput,
      (calculateProductivityScore input).promptnessScore
        + (calculateProductivityScore input).focusScore
        + (calculateProductivityScore input).commitmentBonus
        ≠ (calculateProductivityScore input).totalScore := by
  refine ⟨fun input => ⟨rfl, rfl, rfl, rfl⟩, ⟨⟨0, 300000, 45, 45⟩, ?_⟩⟩
  rw [calc_example_late]
  decide

/-- C2: inside `calculateProductivityScore` the unrounded promptness score is
the piecewise function of the delay: 30 up to 2 minutes, `30 - 1.875 * (d - 2)`
on (2, 10], `15 - 0.75 * (d - 10)` on (10, 30], 0 past 30, and the pieces are
continuous at the breakpoints (value 15 at `d = 10` from both adjacent
formulas, value 0 at `d = 30`). -/
theorem promptness_piecewise :
    (∀ d : ℤ, d ≤ 2 → promptnessOf d = 30) ∧
    (∀ d : ℤ, 2 < d → d ≤ 10 → promptnessOf d = 30 - 1.875 * ((d : ℚ) - 2)) ∧
    (∀ d : ℤ, 10 < d → d ≤ 30 → promptnessOf d = 15 - 0.75 * ((d : ℚ) - 10)) ∧
    (∀ d : ℤ, 30 < d → promptnessOf d = 0) ∧
    (promptnessOf 10 = 15 ∧ 30 - 1.875 * ((10 : ℚ) - 2) = 15
      ∧ 15 - 0.75 * ((10 : ℚ) - 10) = 15) ∧
    (promptnessOf 30 = 0 ∧ 15 - 0.75 * ((30 : ℚ) - 10) = 0) := by
  refine ⟨fun d h => promptnessOf_of_le_two h, fun d h1 h2 => promptnessOf_of_mid h1 h2,
    fun d h1 h2 => promptnessOf_of_late h1 h2, fun d h => promptnessOf_of_gt_thirty h,
    ⟨?_, by norm_num, by norm_num⟩, ⟨?_, by norm_num⟩⟩
  · rw [promptnessOf_of_mid (by norm_num) (by norm_num)]
    norm_num
  · rw [promptnessOf_of_late (by norm_num) (by norm_num)]
    norm_num

/-- Witness for C2: the four pieces evaluated at delays 1, 5, 20 and 31. -/
theorem promptness_piecewise_witness :
    promptnessOf 1 = 30 ∧ promptnessOf 5 = 30 - 1.875 * ((5 : ℚ) - 2) ∧
    promptnessOf 20 = 15 - 0.75 * ((20 : ℚ) - 10) ∧ promptnessOf 31 = 0 :=
  ⟨promptness_piecewise.1 1 (by decide), promptness_piecewise.2.1 5 (by decide) (by decide),
    promptness_piecewise.2.2.1 20 (by decide) (by decide),
    promptness_piecewise.2.2.2.1 31 (by decide)⟩

/-- C3: the unrounded commitment bonus is `10.5 / (1 + exp(-0.07 * (c - 45)))`,
a function of `completedMinutes` alone; its value at 45 completed minutes is
5.25, exactly half of its supremum 10.5 over all inputs. -/
theorem commitmentBonus_logistic :
    (∀ c : ℚ, commitmentBonusOf c = 10.5 / (1 + Real.exp (-0.07 * ((c : ℝ) - 45)))) ∧
    commitmentBonusOf 45 = 5.25 ∧
    IsLUB (Set.range commitmentBonusOf) 10.5 ∧ (5.25 : ℝ) = 10.5 / 2 := by
  refine ⟨fun c => ?_, commitmentBonusOf_at_midpoint, commitmentBonus_isLUB, by norm_num⟩
  unfold commitmentBonusOf
  norm_num

/-- C4: for every input, including negative completed minutes, non-positive
durations and arbitrary start instants, each field of the returned
`ScoreBreakdown` lies in its stated range: promptness in [0, 30], focus in
[0, 60], bonus in [0, 10], total in [0, 100]. -/
theorem scoreBreakdown_ranges :
    ∀ input : ProductivityScoreInput,
      0 ≤ (calculateProductivityScore input).promptnessScore ∧
      (calculateProductivityScore input).promptnessScore ≤ 30 ∧
      0 ≤ (calculateProductivityScore input).focusScore ∧
      (calculateProductivityScore input).focusScore ≤ 60 ∧
      0 ≤ (calculateProductivityScore input).commitmentBonus ∧
      (calculateProductivityScore input).commitmentBonus ≤ 10 ∧
      0 ≤ (calculateProductivityScore input).totalScore ∧
      (calculateProductivityScore input).totalScore ≤ 100 := by
  intro input
  simp only [calculateProductivityScore]
  have hp0 := promptnessOf_nonneg (getDelayMinutes input.scheduledStart input.actualStart)
  have hp30 := promptnessOf_le_thirty (getDelayMinutes input.scheduledStart input.actualStart)
  have hpct0 := getCompletionPercentage_nonneg input.completedMinutes input.durationMinutes
  have hpct100 := getCompletionPercentage_le_hundred input.completedMinutes input.durationMinutes
  have hf0 := focusOf_nonneg hpct0
  have hf60 := focusOf_le_sixty hpct100
  have hb0 := commitmentBonusOf_pos input.completedMinutes
  have hb105 := commitmentBonusOf_lt input.completedMinutes
  refine ⟨le_jround (by exact_mod_cast hp0), jround_le (by exact_mod_cast hp30),
    le_jround (by exact_mod_cast hf0), jround_le (by exact_mod_cast hf60),
    le_jroundR (by exact_mod_cast hb0.le), ?_, ?_, ?_⟩
  · unfold jroundR
    apply Int.floor_le_iff.2
    push_cast
    have : (10.5 : ℝ) = 10 + 1 / 2 := by norm_num
    linarith [hb105, this ▸ hb105]
  · apply le_jroundR
    push_cast
    apply le_min (by norm_num)
    have hpr : (0 : ℝ) ≤
        ((promptnessOf (getDelayMinutes input.scheduledStart input.actualStart) : ℚ) : ℝ) := by
      exact_mod_cast hp0
    have hfr : (0 : ℝ) ≤
        ((focusOf (getCompletionPercentage input.completedMinutes input.durationMinutes) : ℚ)
          : ℝ) := by
      exact_mod_cast hf0
    linarith
  · apply jroundR_le
    push_cast
    exact min_le_left _ _

/-- C5: `getCompletionPercentage` returns 0 for non-positive durations,
otherwise the rounded percentage clamped to [0, 100]; in particular 100
whenever `c ≥ d > 0` and 0 whenever `c ≤ 0 < d`.  It is a total function, so
it never signals an error. -/
theorem getCompletionPercentage_spec :
    ∀ c d : ℚ,
      (d ≤ 0 → getCompletionPercentage c d = 0) ∧
      (0 < d → getCompletionPercentage c d = max 0 (min 100 (jround (100 * c / d)))) ∧
      (0 < d → d ≤ c → getCompletionPercentage c d = 100) ∧
      (0 < d → c ≤ 0 → getCompletionPercentage c d = 0) := by
  intro c d
  refine ⟨fun h => getCompletionPercentage_of_nonpos h, fun h => ?_,
    fun h1 h2 => getCompletionPercentage_of_complete h1 h2,
    fun h1 h2 => getCompletionPercentage_of_zero_completed h1 h2⟩
  rw [getCompletionPercentage_of_pos h, show c / d * 100 = 100 * c / d by ring]

/-- Witness for C5: the four cases evaluated at concrete inputs. -/
theorem getCompletionPercentage_spec_witness :
    getCompletionPercentage 5 0 = 0 ∧
    getCompletionPercentage 30 60 = max 0 (min 100 (jround (100 * 30 / 60))) ∧
    getCompletionPercentage 50 40 = 100 ∧
    getCompletionPercentage (-3) 10 = 0 :=
  ⟨(getCompletionPercentage_spec 5 0).1 (by norm_num),
    (getCompletionPercentage_spec 30 60).2.1 (by norm_num),
    (getCompletionPercentage_spec 50 40).2.2.1 (by norm_num) (by norm_num),
    (getCompletionPercentage_spec (-3) 10).2.2.2 (by norm_num) (by norm_num)⟩

/-- C6: `getDelayMinutes` is the floor (toward negative infinity) of the
millisecond difference divided by 60000, and the result is negative exactly
when the actual start precedes the scheduled start, i.e. as soon as the
start crosses below the scheduled whole-minute boundary. -/
theorem getDelayMinutes_floor_spec :
    ∀ scheduledStart actualStart : ℤ,
      getDelayMinutes scheduledStart actualStart =
        ⌊((actualStart - scheduledStart : ℤ) : ℚ) / 60000⌋ ∧
      (getDelayMinutes scheduledStart actualStart < 0 ↔ actualStart < scheduledStart) :=
  fun s a => ⟨getDelayMinutes_eq_floor s a, getDelayMinutes_neg_iff s a⟩

/-- C7 counterexample: at duration 45, completed 45, delay 0, the code returns
`totalScore = 95`, not 100 as the claim states (the bonus at 45 completed
minutes is 5.25, which rounds to 5, not approximately 10). -/
theorem example_45_total_ne_100 :
    (calculateProductivityScore ⟨0, 0, 45, 45⟩).totalScore ≠ 100 := by
  rw [calc_example_ontime]
  decide

/-- C7 amended: at duration 45, completed 45, delay 0, the code returns
promptness 30, focus 60, bonus 5 (the unrounded bonus is 5.25, half the
maximum) and total 95. -/
theorem example_45_breakdown :
    calculateProductivityScore ⟨0, 0, 45, 45⟩ = ⟨30, 60, 5, 95⟩ ∧
    commitmentBonusOf 45 = 5.25 :=
  ⟨calc_example_ontime, commitmentBonusOf_at_midpoint⟩

/-- C8: for a fixed scheduled start, `getDelayMinutes` is monotone
non-decreasing in the actual start. -/
theorem getDelayMinutes_monotone :
    ∀ s a1 a2 : ℤ, a1 ≤ a2 → getDelayMinutes s a1 ≤ getDelayMinutes s a2 :=
  fun _ _ _ h => getDelayMinutes_mono h

/-- Witness for C8: an early start of 61 seconds against a late start. -/
theorem getDelayMinutes_monotone_witness :
    getDelayMinutes 0 (-61000) ≤ getDelayMinutes 0 130000 :=
  getDelayMinutes_monotone 0 (-61000) 130000 (by decide)

/-- C9: the unrounded promptness score is monotone non-increasing in the
delay over the whole integer domain, negative delays included. -/
theorem promptness_antitone_in_delay :
    ∀ d1 d2 : ℤ, d1 ≤ d2 → promptnessOf d2 ≤ promptnessOf d1 :=
  fun _ _ h => promptnessOf_antitone h

/-- Witness for C9: a delay of 7 minutes scores no more than an early start. -/
theorem promptness_antitone_in_delay_witness :
    promptnessOf 7 ≤ promptnessOf (-3) :=
  promptness_antitone_in_delay (-3) 7 (by decide)

/-- C10: the unrounded commitment bonus is strictly between 0 and 10.5 for
every completed-minutes value (never exactly 0, even for zero or negative
inputs), and it is strictly increasing in the completed minutes. -/
theorem commitmentBonus_bounds_and_strict_mono :
    (∀ c : ℚ, 0 < commitmentBonusOf c ∧ commitmentBonusOf c < 10.5) ∧
    (∀ c1 c2 : ℚ, c1 < c2 → commitmentBonusOf c1 < commitmentBonusOf c2) :=
  ⟨fun c => ⟨commitmentBonusOf_pos c, commitmentBonusOf_lt c⟩,
    fun _ _ h => commitmentBonusOf_lt_of_lt h⟩

/-- Witness for C10: bounds at a negative input and strict growth from 0 to
60 completed minutes. -/
theorem commitmentBonus_bounds_and_strict_mono_witness :
    (0 < commitmentBonusOf (-5) ∧ commitmentBonusOf (-5) < 10.5) ∧
    commitmentBonusOf 0 < commitmentBonusOf 60 :=
  ⟨commitmentBonus_bounds_and_strict_mono.1 (-5),
    commitmentBonus_bounds_and_strict_mono.2 0 60 (by norm_num)⟩

end ProductivityTracker
